import Mathlib

/-!
Verification development for the MusicBot voice pipeline
(musicbot/voice_recognition.py and musicbot/voice_commands.py).

Text values are modelled as lists of characters, audio byte strings as
lists of natural numbers, and timestamps as natural ticks.  The Python
dictionaries keyed by user id or by string are modelled as association
lists with explicit lookup and update functions.
-/

/-- Whitespace test matching the characters handled by the default
Python str.strip and str.split. -/
def isWS (c : Char) : Bool :=
  c = ' ' || c = '\t' || c = '\n' || c = '\r' || c = '\x0b' || c = '\x0c'

/-- Python str.lower; the ASCII case map, identity on Hangul syllables. -/
def lowerStr (s : List Char) : List Char := s.map Char.toLower

/-- Python str.strip with no argument: drop leading and trailing whitespace. -/
def pyStrip (s : List Char) : List Char :=
  ((s.dropWhile isWS).reverse.dropWhile isWS).reverse

/-- Index of the first occurrence of needle in haystack, none when the
needle does not occur (Python str.find guarded by the in operator). -/
def findSub (needle : List Char) : List Char → Option Nat
  | [] => if needle.isEmpty then some 0 else none
  | c :: rest =>
    if needle.isPrefixOf (c :: rest) then some 0
    else (findSub needle rest).map (· + 1)

/-- Python substring containment, the in operator on str. -/
def containsSub (needle haystack : List Char) : Bool :=
  (findSub needle haystack).isSome

/-- Accumulator loop behind pySplit. -/
def splitAux : List Char → List Char → List (List Char)
  | [], acc => if acc.isEmpty then [] else [acc.reverse]
  | c :: cs, acc =>
    if isWS c then
      if acc.isEmpty then splitAux cs [] else acc.reverse :: splitAux cs []
    else splitAux cs (c :: acc)

/-- Python str.split with no argument: split on whitespace runs, dropping
empty words. -/
def pySplit (s : List Char) : List (List Char) := splitAux s []

/-- Lookup in an association list (Python dict indexing and dict.get). -/
def alookup {κ α : Type} [DecidableEq κ] (k : κ) : List (κ × α) → Option α
  | [] => none
  | (k1, v) :: rest => if k1 = k then some v else alookup k rest

/-- Insert or update a key in an association list (Python dict assignment). -/
def aset {κ α : Type} [DecidableEq κ] (k : κ) (v : α) : List (κ × α) → List (κ × α)
  | [] => [(k, v)]
  | (k1, v1) :: rest => if k1 = k then (k, v) :: rest else (k1, v1) :: aset k v rest

/-- Stable insertion of a command entry into a list already sorted by
descending trigger-phrase length. -/
def insertByLen (e : List Char × List Char) :
    List (List Char × List Char) → List (List Char × List Char)
  | [] => [e]
  | x :: xs => if e.1.length < x.1.length then x :: insertByLen e xs else e :: x :: xs

/-- Stable sort by descending trigger-phrase length, modelling the Python
call sorted with key length and reverse true in parse_command. -/
def sortByLenDesc : List (List Char × List Char) → List (List Char × List Char)
  | [] => []
  | x :: xs => insertByLen x (sortByLenDesc xs)

/-- The Korean trigger-phrase table of VoiceRecognitionHandler.parse_command
in voice_recognition.py, in source order. -/
def vr_command_map : List (List Char × List Char) :=
  [("재생".toList, "!play".toList),
   ("플레이".toList, "!play".toList),
   ("틀어줘".toList, "!play".toList),
   ("들려줘".toList, "!play".toList),
   ("일시정지".toList, "!pause".toList),
   ("멈춰".toList, "!pause".toList),
   ("정지".toList, "!pause".toList),
   ("다시재생".toList, "!resume".toList),
   ("계속".toList, "!resume".toList),
   ("다시".toList, "!resume".toList),
   ("스킵".toList, "!skip".toList),
   ("건너뛰기".toList, "!skip".toList),
   ("넘겨".toList, "!skip".toList),
   ("다음".toList, "!skip".toList),
   ("큐".toList, "!queue".toList),
   ("대기열".toList, "!queue".toList),
   ("목록".toList, "!queue".toList),
   ("지금재생".toList, "!np".toList),
   ("현재곡".toList, "!np".toList),
   ("지금곡".toList, "!np".toList),
   ("볼륨".toList, "!volume".toList),
   ("음량".toList, "!volume".toList),
   ("소리".toList, "!volume".toList),
   ("셔플".toList, "!shuffle".toList),
   ("섞기".toList, "!shuffle".toList),
   ("반복".toList, "!repeat".toList),
   ("리피트".toList, "!repeat".toList),
   ("나와".toList, "!disconnect".toList),
   ("종료".toList, "!disconnect".toList),
   ("끊어".toList, "!disconnect".toList),
   ("그만".toList, "!disconnect".toList)]

/-- The Korean trigger-phrase table of VoiceCommandParser in
voice_commands.py, in source order. -/
def vc_command_map : List (List Char × List Char) :=
  [("재생".toList, "!play".toList),
   ("플레이".toList, "!play".toList),
   ("틀어줘".toList, "play".toList),
   ("들려줘".toList, "play".toList),
   ("노래틀어줘".toList, "play".toList),
   ("음악틀어줘".toList, "play".toList),
   ("일시정지".toList, "!pause".toList),
   ("멈춰".toList, "!pause".toList),
   ("정지".toList, "!pause".toList),
   ("멈춰줘".toList, "!pause".toList),
   ("다시재생".toList, "!resume".toList),
   ("계속".toList, "!resume".toList),
   ("다시".toList, "!resume".toList),
   ("계속재생".toList, "!resume".toList),
   ("이어서".toList, "!resume".toList),
   ("스킵".toList, "!skip".toList),
   ("건너뛰기".toList, "!skip".toList),
   ("넘겨".toList, "!skip".toList),
   ("다음".toList, "!skip".toList),
   ("다음곡".toList, "!skip".toList),
   ("넘겨줘".toList, "!skip".toList),
   ("큐".toList, "!queue".toList),
   ("대기열".toList, "!queue".toList),
   ("목록".toList, "!queue".toList),
   ("재생목록".toList, "!queue".toList),
   ("지금재생".toList, "!np".toList),
   ("현재곡".toList, "!np".toList),
   ("지금곡".toList, "np".toList),
   ("뭐나와".toList, "!np".toList),
   ("뭐틀고있어".toList, "!np".toList),
   ("볼륨".toList, "!volume".toList),
   ("음량".toList, "!volume".toList),
   ("소리".toList, "!volume".toList),
   ("크기".toList, "!volume".toList),
   ("셔플".toList, "!shuffle".toList),
   ("섞기".toList, "!shuffle".toList),
   ("랜덤".toList, "!shuffle".toList),
   ("반복".toList, "!repeat".toList),
   ("리피트".toList, "!repeat".toList),
   ("무한반복".toList, "!repeat".toList),
   ("나와".toList, "!disconnect".toList),
   ("종료".toList, "!disconnect".toList),
   ("끊어".toList, "!disconnect".toList),
   ("그만".toList, "!disconnect".toList),
   ("나가".toList, "!disconnect".toList),
   ("꺼져".toList, "!disconnect".toList),
   ("와".toList, "summon".toList),
   ("이리와".toList, "summon".toList),
   ("오".toList, "summon".toList),
   ("소환".toList, "summon".toList),
   ("클리어".toList, "!clear".toList),
   ("전부삭제".toList, "!clear".toList),
   ("다지워".toList, "!clear".toList),
   ("목록지워".toList, "!clear".toList)]

/-- Front half of parse_command: lowercase and strip the text, require the
stored bot name as a substring, take everything after its first occurrence
and strip again, failing on empty results. -/
def extract_command_text (bot_name text : List Char) : Option (List Char) :=
  if text.isEmpty then none
  else
    match findSub bot_name (pyStrip (lowerStr text)) with
    | none => none
    | some i =>
      if (pyStrip ((pyStrip (lowerStr text)).drop (i + bot_name.length))).isEmpty then none
      else some (pyStrip ((pyStrip (lowerStr text)).drop (i + bot_name.length)))

/-- parse_command of VoiceRecognitionHandler and of VoiceCommandParser,
parameterised by the stored bot name and the trigger-phrase table: after
extracting the text that follows the bot name, the entries are scanned in
descending phrase-length order and the first entry whose phrase is a
prefix of the remaining text wins; the stripped text after the phrase
becomes the argument string. -/
def parse_command (bot_name : List Char) (cmap : List (List Char × List Char))
    (text : List Char) : Option (List Char × List Char) :=
  match extract_command_text bot_name text with
  | none => none
  | some ct =>
    match (sortByLenDesc cmap).find? (fun x => x.1.isPrefixOf ct) with
    | none => none
    | some e => some (e.2, pyStrip (ct.drop e.1.length))

/-- The RealtimeAudioSink attributes fixed in its constructor: sample rate,
chunk duration, minimum audio length in bytes, maximum buffer duration in
seconds, and the optionally configured bot id. -/
structure SinkCfg where
  sample_rate : Nat
  chunk_duration : Nat
  min_audio_length : Nat
  max_buffer_duration : Nat
  bot_id : Option Nat
deriving DecidableEq

/-- Capacity of a per-speaker deque: sample rate times maximum buffer
duration, the maxlen passed to the deque constructor. -/
def SinkCfg.maxlen (cfg : SinkCfg) : Nat := cfg.sample_rate * cfg.max_buffer_duration

/-- The constructor defaults of RealtimeAudioSink: 48000 Hz, 5 second
chunks, 24000 byte minimum, 8 second ring buffer, no bot id yet. -/
def defaultSinkCfg : SinkCfg := ⟨48000, 5, 24000, 8, none⟩

/-- The mutable per-speaker state of RealtimeAudioSink: audio_buffers,
processing_locks (a held lock is true) and last_process_time, each keyed
by user id. -/
structure SinkState where
  audio_buffers : List (Nat × List (List Nat))
  processing_locks : List (Nat × Bool)
  last_process_time : List (Nat × Nat)
deriving DecidableEq

/-- The sink state right after construction: all three maps empty. -/
def initSinkState : SinkState := ⟨[], [], []⟩

/-- Append to a Python deque with the given maxlen: a full deque discards
its oldest element, and a deque with maxlen zero stays empty. -/
def dequeAppend (maxlen : Nat) (buf : List (List Nat)) (x : List Nat) : List (List Nat) :=
  if maxlen = 0 then buf
  else if buf.length < maxlen then buf ++ [x]
  else buf.drop 1 ++ [x]

/-- RealtimeAudioSink.write: ignore the bot's own audio, lazily create the
three per-speaker entries, append the frame to the speaker's deque, and
report whether a flush of that speaker was requested (the event-loop
handle is modelled as always available). -/
def write (cfg : SinkCfg) (st : SinkState) (data : List Nat) (user : Nat) (now : Nat) :
    SinkState × Bool :=
  if cfg.bot_id = some user then (st, false)
  else
    let st1 : SinkState :=
      if (alookup user st.audio_buffers).isSome then st
      else
        ⟨aset user [] st.audio_buffers,
         aset user false st.processing_locks,
         aset user now st.last_process_time⟩
    let st2 : SinkState :=
      ⟨aset user (dequeAppend cfg.maxlen ((alookup user st1.audio_buffers).getD []) data)
          st1.audio_buffers,
       st1.processing_locks,
       st1.last_process_time⟩
    (st2, decide (cfg.chunk_duration ≤ now - (alookup user st2.last_process_time).getD 0))

/-- A sequence of write calls, each a triple of frame data, user id and
arrival time. -/
def writeSeq (cfg : SinkCfg) (st : SinkState) : List (List Nat × Nat × Nat) → SinkState
  | [] => st
  | (data, user, now) :: rest => writeSeq cfg (write cfg st data user now).1 rest

/-- Observable outcome of one flush attempt: the resulting sink state,
whether recognition was invoked on the snapshot, and the recognised text
handed to the callback when the bot name occurred in it. -/
structure ProcResult where
  state : SinkState
  recognitionInvoked : Bool
  callbackText : Option (List Char)
deriving DecidableEq

/-- RealtimeAudioSink._process_user_audio_realtime as a pure step.  The
external speech-to-text result is the oracle argument recognized (none
models both an unrecognised chunk and a service failure, which the code
treats alike).  A missing lock entry or a held lock returns at once; the
scoped lock acquisition is released on every exit path, so the lock map is
unchanged in the result.  An empty buffer or a snapshot shorter than
min_audio_length also returns at once; only past that point are the last
process time updated to now and the buffer cleared. -/
def processUserAudio (cfg : SinkCfg) (st : SinkState) (user : Nat) (now : Nat)
    (recognized : Option (List Char)) (bot_name : List Char) : ProcResult :=
  match alookup user st.processing_locks with
  | none => ⟨st, false, none⟩
  | some true => ⟨st, false, none⟩
  | some false =>
    match alookup user st.audio_buffers with
    | none => ⟨st, false, none⟩
    | some buf =>
      if buf.isEmpty then ⟨st, false, none⟩
      else if buf.flatten.length < cfg.min_audio_length then ⟨st, false, none⟩
      else
        let st1 : SinkState :=
          ⟨aset user [] st.audio_buffers,
           st.processing_locks,
           aset user now st.last_process_time⟩
        match recognized with
        | none => ⟨st1, true, none⟩
        | some text =>
          if containsSub bot_name (lowerStr text) then ⟨st1, true, some text⟩
          else ⟨st1, true, none⟩

/-- Kind of a declared handler parameter, as reported by inspect.signature. -/
inductive ParamKind
  | posOrKw
  | varPositional
  | keywordOnly
  | varKeyword
deriving DecidableEq

/-- One declared parameter of a command handler: its name, its kind, and
whether it carries a default value. -/
structure Param where
  name : List Char
  kind : ParamKind
  hasDefault : Bool
deriving DecidableEq

/-- A Response value a handler may return; the dispatcher forwards it to
the text channel. -/
structure Resp where
  content : List Char
deriving DecidableEq

/-- A registered command handler: its declared parameters in order, and
the response its invocation returns (none when it returns nothing). -/
structure Handler where
  params : List Param
  response : Option Resp
deriving DecidableEq

/-- Outcome of one bot.get_player call: success, failure whose message
contains the not-in-a-voice-channel marker, or any other failure. -/
inductive GetPlayerResult
  | ok
  | errNotInVoice
  | errOther
deriving DecidableEq

/-- The environment a dispatch runs in: the registered cmd_ handlers, the
alias table, the combined usealias guard, whether the bot object carries a
permissions attribute, whether the invoking member is in a voice channel,
and the behaviour of get_player before and after a summon attempt. -/
structure DispatchEnv where
  handlers : List (List Char × Handler)
  aliases : List (List Char × List Char)
  usealias : Bool
  hasPermissions : Bool
  memberInVoice : Bool
  getPlayer1 : GetPlayerResult
  summonOk : Bool
  getPlayer2 : GetPlayerResult
deriving DecidableEq

/-- A value bound to a handler parameter by the dispatcher.  The token and
string bindings snapshot the Python lists and strings at bind time. -/
inductive BoundValue
  | message
  | channel
  | author
  | guild
  | player
  | optPlayer
  | permissions
  | emptyList
  | voiceChannel
  | tokens (ts : List (List Char))
  | str (s : List Char)
deriving DecidableEq

/-- Observable result of _execute_command_directly.  handlerNotFound is
the logged silent return; voiceContextError is the raised must-be-in-a-
voice-channel exception; playerResolveError is a re-raised get_player
failure; missingParamsCall records that required parameters stayed
unbound, the warning was logged and the handler call was still attempted
with the partial keyword set (in Python that call fails, so no response is
produced); completed records a successful call and the forwarded
response.  Each error constructor carries how many summon recovery
attempts were made before it was raised. -/
inductive DispatchResult
  | handlerNotFound
  | voiceContextError (summonAttempts : Nat)
  | playerResolveError (summonAttempts : Nat)
  | missingParamsCall (kwargs : List (List Char × BoundValue)) (missing : List (List Char))
  | completed (kwargs : List (List Char × BoundValue)) (forwarded : Option Resp)
deriving DecidableEq

/-- True exactly when the dispatcher reached the handler call site. -/
def handlerCallAttempted : DispatchResult → Bool
  | DispatchResult.missingParamsCall _ _ => true
  | DispatchResult.completed _ _ => true
  | _ => false

/-- Python command.lstrip with the bang string: drop every leading
marker character. -/
def stripMarker (command : List Char) : List Char := command.dropWhile (fun c => c = '!')

/-- Handler resolution: look the stripped name up among the registered
handlers, and on a miss consult the alias table once when the usealias
guard allows it. -/
def resolveHandler (env : DispatchEnv) (command : List Char) : Option Handler :=
  match alookup (stripMarker command) env.handlers with
  | some h => some h
  | none =>
    if env.usealias then
      match alookup (stripMarker command) env.aliases with
      | some ac => alookup ac env.handlers
      | none => none
    else none

/-- Python params.pop of the given name: remove the first parameter with
that name, reporting the remaining list, or none when absent. -/
def popParam (n : List Char) : List Param → Option (List Param)
  | [] => none
  | p :: ps => if p.name = n then some ps else (popParam n ps).map (p :: ·)

/-- One conditional context binding: when the handler declares the named
parameter, remove it and append the given bound value to the keyword set. -/
def ctxStep (n : List Char) (v : BoundValue)
    (acc : List (List Char × BoundValue) × List Param) :
    List (List Char × BoundValue) × List Param :=
  match popParam n acc.2 with
  | none => acc
  | some ps2 => (acc.1 ++ [(n, v)], ps2)

/-- The permissions binding: the parameter is always removed when
declared, but a value is bound only when the bot has a permissions
attribute. -/
def permStep (env : DispatchEnv) (acc : List (List Char × BoundValue) × List Param) :
    List (List Char × BoundValue) × List Param :=
  match popParam ("permissions".toList) acc.2 with
  | none => acc
  | some ps2 =>
    (if env.hasPermissions then acc.1 ++ [("permissions".toList, BoundValue.permissions)]
     else acc.1, ps2)

/-- The four unconditional context bindings that precede the player
binding, in source order: message, channel, author, guild. -/
def bindBasicCtx (ps : List Param) : List (List Char × BoundValue) × List Param :=
  ctxStep ("guild".toList) BoundValue.guild
    (ctxStep ("author".toList) BoundValue.author
      (ctxStep ("channel".toList) BoundValue.channel
        (ctxStep ("message".toList) BoundValue.message ([], ps))))

/-- Resolution of the required player context value.  A member not in any
voice channel raises the must-be-in-a-voice-channel exception with no
summon attempt.  A get_player failure mentioning not-in-a-voice-channel
triggers one summon attempt followed by one retry, and on any failure the
original error is re-raised; any other get_player failure is re-raised at
once. -/
def resolvePlayer (env : DispatchEnv) : Except DispatchResult Unit :=
  if env.memberInVoice then
    match env.getPlayer1 with
    | GetPlayerResult.ok => Except.ok ()
    | GetPlayerResult.errNotInVoice =>
      if env.summonOk then
        match env.getPlayer2 with
        | GetPlayerResult.ok => Except.ok ()
        | _ => Except.error (DispatchResult.playerResolveError 1)
      else Except.error (DispatchResult.playerResolveError 1)
    | GetPlayerResult.errOther => Except.error (DispatchResult.playerResolveError 0)
  else Except.error (DispatchResult.voiceContextError 0)

/-- The loop over the parameters left after context binding, threading the
remaining positional tokens.  A var-positional parameter binds the current
token list; a keyword-only parameter without default binds the full
argument string when tokens remain and the empty string otherwise; a
parameter with a default is skipped once tokens run out; otherwise the
next token is consumed, and a required parameter with no token left stays
unbound and is reported missing.  Returns the added bindings, the
leftover tokens and the missing names. -/
def fillRemaining (argsStr : List Char) :
    List Param → List (List Char) →
    List (List Char × BoundValue) × List (List Char) × List (List Char)
  | [], al => ([], al, [])
  | p :: ps, al =>
    if p.kind = ParamKind.varPositional then
      match fillRemaining argsStr ps al with
      | (ks, al2, ms) => ((p.name, BoundValue.tokens al) :: ks, al2, ms)
    else if p.kind = ParamKind.keywordOnly ∧ p.hasDefault = false then
      match fillRemaining argsStr ps al with
      | (ks, al2, ms) =>
        ((p.name, BoundValue.str (if al.isEmpty then [] else argsStr)) :: ks, al2, ms)
    else if al = [] ∧ p.hasDefault = true then
      fillRemaining argsStr ps al
    else
      match al with
      | a :: al2 =>
        match fillRemaining argsStr ps al2 with
        | (ks, al3, ms) => ((p.name, BoundValue.str a) :: ks, al3, ms)
      | [] =>
        match fillRemaining argsStr ps [] with
        | (ks, al3, ms) => (ks, al3, p.name :: ms)

/-- The dispatch tail after the player binding: the remaining context
bindings in source order, the fill loop, the missing-parameter warning
and the handler call. -/
def afterPlayer (env : DispatchEnv) (args : List Char) (argsList : List (List Char))
    (h : Handler) (acc : List (List Char × BoundValue) × List Param) : DispatchResult :=
  let b6 :=
    ctxStep ("leftover_args".toList) (BoundValue.tokens argsList)
      (ctxStep ("voice_channel".toList) BoundValue.voiceChannel
        (ctxStep ("channel_mentions".toList) BoundValue.emptyList
          (ctxStep ("user_mentions".toList) BoundValue.emptyList
            (permStep env
              (ctxStep ("_player".toList) BoundValue.optPlayer acc)))))
  match fillRemaining args b6.2 argsList with
  | (ks, _, ms) =>
    if ms.isEmpty then DispatchResult.completed (b6.1 ++ ks) h.response
    else DispatchResult.missingParamsCall (b6.1 ++ ks) ms

/-- VoiceListener._execute_command_directly: strip the marker, resolve the
handler (consulting the alias table once), bind the fixed context
vocabulary to the declared parameter names, resolve the player value when
demanded, fill the rest positionally from the whitespace-split argument
tokens, and call the handler, forwarding its response. -/
def dispatch (env : DispatchEnv) (command args : List Char) : DispatchResult :=
  match resolveHandler env command with
  | none => DispatchResult.handlerNotFound
  | some h =>
    match popParam ("player".toList) (bindBasicCtx h.params).2 with
    | none => afterPlayer env args (pySplit args) h (bindBasicCtx h.params)
    | some ps2 =>
      match resolvePlayer env with
      | Except.error r => r
      | Except.ok _ =>
        afterPlayer env args (pySplit args) h
          ((bindBasicCtx h.params).1 ++ [("player".toList, BoundValue.player)], ps2)

/-- The fixed context vocabulary consulted by name during dispatch. -/
def ctxNames : List (List Char) :=
  ["message".toList, "channel".toList, "author".toList, "guild".toList,
   "player".toList, "_player".toList, "permissions".toList, "user_mentions".toList,
   "channel_mentions".toList, "voice_channel".toList, "leftover_args".toList]

lemma mem_insertByLen {e a : List Char × List Char} {l : List (List Char × List Char)} :
    a ∈ insertByLen e l ↔ a = e ∨ a ∈ l := by
  induction l with
  | nil => simp [insertByLen]
  | cons x xs ih =>
    by_cases h : e.1.length < x.1.length
    · simp only [insertByLen, if_pos h, List.mem_cons, ih]
      tauto
    · simp only [insertByLen, if_neg h, List.mem_cons]

lemma mem_sortByLenDesc {a : List Char × List Char} {l : List (List Char × List Char)} :
    a ∈ sortByLenDesc l ↔ a ∈ l := by
  induction l with
  | nil => simp [sortByLenDesc]
  | cons x xs ih => simp [sortByLenDesc, mem_insertByLen, ih]

lemma pairwise_insertByLen {e : List Char × List Char} {l : List (List Char × List Char)}
    (h : l.Pairwise (fun a b => b.1.length ≤ a.1.length)) :
    (insertByLen e l).Pairwise (fun a b => b.1.length ≤ a.1.length) := by
  induction l with
  | nil => simp [insertByLen]
  | cons x xs ih =>
    rcases List.pairwise_cons.1 h with ⟨hx, hxs⟩
    by_cases hc : e.1.length < x.1.length
    · simp only [insertByLen, if_pos hc]
      refine List.pairwise_cons.2 ⟨?_, ih hxs⟩
      intro b hb
      rcases mem_insertByLen.1 hb with rfl | hb2
      · exact Nat.le_of_lt hc
      · exact hx b hb2
    · simp only [insertByLen, if_neg hc]
      refine List.pairwise_cons.2 ⟨?_, h⟩
      intro b hb
      rcases List.mem_cons.1 hb with rfl | hb2
      · exact Nat.le_of_not_lt hc
      · exact le_trans (hx b hb2) (Nat.le_of_not_lt hc)

lemma pairwise_sortByLenDesc (l : List (List Char × List Char)) :
    (sortByLenDesc l).Pairwise (fun a b => b.1.length ≤ a.1.length) := by
  induction l with
  | nil => simp [sortByLenDesc]
  | cons x xs ih => exact pairwise_insertByLen ih

lemma find?_isSome_of_mem {α : Type} {p : α → Bool} {l : List α} {a : α}
    (ha : a ∈ l) (hp : p a = true) : ∃ b, l.find? p = some b := by
  induction l with
  | nil => cases ha
  | cons x xs ih =>
    by_cases hx : p x = true
    · exact ⟨x, List.find?_cons_of_pos _ hx⟩
    · rcases List.mem_cons.1 ha with rfl | ha2
      · exact absurd hp hx
      · obtain ⟨b, hb⟩ := ih ha2
        exact ⟨b, by rw [List.find?_cons_of_neg _ (by simpa using hx), hb]⟩

lemma find?_longest_of_pairwise {l : List (List Char × List Char)} {r : List Char}
    {e : List Char × List Char}
    (hs : l.Pairwise (fun a b => b.1.length ≤ a.1.length))
    (he : l.find? (fun x => x.1.isPrefixOf r) = some e) :
    ∀ f ∈ l, f.1.isPrefixOf r = true → f.1.length ≤ e.1.length := by
  induction l with
  | nil => simp at he
  | cons x xs ih =>
    rcases List.pairwise_cons.1 hs with ⟨hx, hxs⟩
    cases hpx : x.1.isPrefixOf r with
    | true =>
      simp only [List.find?, hpx] at he
      cases he
      intro f hf _
      rcases List.mem_cons.1 hf with rfl | hf2
      · exact le_refl _
      · exact hx f hf2
    | false =>
      simp only [List.find?, hpx] at he
      intro f hf hfp
      rcases List.mem_cons.1 hf with rfl | hf2
      · rw [hfp] at hpx
        cases hpx
      · exact ih hxs he f hf2 hfp

lemma alookup_aset_self {κ α : Type} [DecidableEq κ] (k : κ) (v : α) (l : List (κ × α)) :
    alookup k (aset k v l) = some v := by
  induction l with
  | nil => simp [aset, alookup]
  | cons kv rest ih =>
    obtain ⟨k1, v1⟩ := kv
    by_cases h : k1 = k
    · simp [aset, h, alookup]
    · simp [aset, h, alookup, ih]

lemma alookup_aset_ne {κ α : Type} [DecidableEq κ] {u k : κ} (v : α) (l : List (κ × α))
    (h : u ≠ k) : alookup u (aset k v l) = alookup u l := by
  induction l with
  | nil =>
    simp only [aset, alookup]
    rw [if_neg (fun hh => h hh.symm)]
  | cons kv rest ih =>
    obtain ⟨k1, v1⟩ := kv
    by_cases h1 : k1 = k
    · subst h1
      simp only [aset, if_pos rfl, alookup]
      rw [if_neg (fun hh => h hh.symm), if_neg (fun hh => h hh.symm)]
    · simp only [aset, if_neg h1, alookup]
      by_cases h2 : k1 = u
      · rw [if_pos h2, if_pos h2]
      · rw [if_neg h2, if_neg h2, ih]

lemma dequeAppend_length_le {m : Nat} {buf : List (List Nat)} {x : List Nat}
    (h : buf.length ≤ m) : (dequeAppend m buf x).length ≤ m := by
  unfold dequeAppend
  by_cases h0 : m = 0
  · simpa [h0] using h
  · rw [if_neg h0]
    by_cases hlt : buf.length < m
    · rw [if_pos hlt]
      simpa using hlt
    · rw [if_neg hlt]
      have hm : buf.length = m := le_antisymm h (le_of_not_lt hlt)
      simp only [List.length_append, List.length_drop, List.length_cons, List.length_nil]
      omega

lemma write_preserves_bounded (cfg : SinkCfg) (st : SinkState) (data : List Nat)
    (user : Nat) (now : Nat)
    (h : ∀ u buf, alookup u st.audio_buffers = some buf → buf.length ≤ cfg.maxlen) :
    ∀ u buf, alookup u (write cfg st data user now).1.audio_buffers = some buf →
      buf.length ≤ cfg.maxlen := by
  unfold write
  by_cases hbot : cfg.bot_id = some user
  · simpa [hbot] using h
  · rw [if_neg hbot]
    simp only
    by_cases hpresent : (alookup user st.audio_buffers).isSome
    · rw [if_pos hpresent]
      intro u buf hbuf
      by_cases hu : u = user
      · subst hu
        obtain ⟨b0, hb0⟩ := Option.isSome_iff_exists.1 hpresent
        rw [alookup_aset_self, hb0] at hbuf
        simp only [Option.getD_some] at hbuf
        cases hbuf
        exact dequeAppend_length_le (h u b0 hb0)
      · rw [alookup_aset_ne _ _ hu] at hbuf
        exact h u buf hbuf
    · rw [if_neg hpresent]
      intro u buf hbuf
      by_cases hu : u = user
      · subst hu
        simp only [alookup_aset_self, Option.getD_some] at hbuf
        cases hbuf
        exact dequeAppend_length_le (Nat.zero_le _)
      · rw [alookup_aset_ne _ _ hu, alookup_aset_ne _ _ hu] at hbuf
        exact h u buf hbuf

lemma writeSeq_bounded (cfg : SinkCfg) (events : List (List Nat × Nat × Nat)) :
    ∀ st : SinkState,
      (∀ u buf, alookup u st.audio_buffers = some buf → buf.length ≤ cfg.maxlen) →
      ∀ u buf, alookup u (writeSeq cfg st events).audio_buffers = some buf →
        buf.length ≤ cfg.maxlen := by
  induction events with
  | nil => intro st h; exact h
  | cons e rest ih =>
    intro st h
    obtain ⟨data, user, now⟩ := e
    exact ih _ (write_preserves_bounded cfg st data user now h)

lemma popParam_isSome {n : List Char} {ps : List Param}
    (h : n ∈ ps.map Param.name) : ∃ ps2, popParam n ps = some ps2 := by
  induction ps with
  | nil => simp at h
  | cons p rest ih =>
    by_cases hp : p.name = n
    · exact ⟨rest, by simp [popParam, hp]⟩
    · have hrest : n ∈ rest.map Param.name := by
        rcases List.mem_map.1 h with ⟨q, hq, hqn⟩
        rcases List.mem_cons.1 hq with rfl | hq2
        · exact absurd hqn hp
        · exact List.mem_map.2 ⟨q, hq2, hqn⟩
      obtain ⟨ps2, hps2⟩ := ih hrest
      exact ⟨p :: ps2, by simp [popParam, hp, hps2]⟩

lemma mem_popParam_of_ne {m n : List Char} {ps ps2 : List Param}
    (hmn : m ≠ n) (hpop : popParam n ps = some ps2)
    (hm : m ∈ ps.map Param.name) : m ∈ ps2.map Param.name := by
  induction ps generalizing ps2 with
  | nil => simp [popParam] at hpop
  | cons p rest ih =>
    by_cases hp : p.name = n
    · rw [popParam, if_pos hp] at hpop
      cases hpop
      rcases List.mem_map.1 hm with ⟨q, hq, hqn⟩
      rcases List.mem_cons.1 hq with rfl | hq2
      · exact absurd (hqn.symm.trans hp) hmn
      · exact List.mem_map.2 ⟨q, hq2, hqn⟩
    · rw [popParam, if_neg hp] at hpop
      rcases Option.map_eq_some'.1 hpop with ⟨r2, hr2, rfl⟩
      rcases List.mem_map.1 hm with ⟨q, hq, hqn⟩
      rcases List.mem_cons.1 hq with rfl | hq2
      · exact List.mem_map.2 ⟨q, List.mem_cons_self _ _, hqn⟩
      · have : m ∈ r2.map Param.name := ih hr2 (List.mem_map.2 ⟨q, hq2, hqn⟩)
        rcases List.mem_map.1 this with ⟨q2, hq2b, hq2n⟩
        exact List.mem_map.2 ⟨q2, List.mem_cons_of_mem _ hq2b, hq2n⟩

lemma mem_ctxStep_of_ne {m n : List Char} {v : BoundValue}
    {acc : List (List Char × BoundValue) × List Param}
    (hmn : m ≠ n) (hm : m ∈ acc.2.map Param.name) :
    m ∈ (ctxStep n v acc).2.map Param.name := by
  unfold ctxStep
  cases hpop : popParam n acc.2 with
  | none => exact hm
  | some ps2 => exact mem_popParam_of_ne hmn hpop hm

/-- A speaker state whose buffered snapshot is three bytes long, with the
flush lock free and a last process time of zero. -/
def shortBufState : SinkState := ⟨[(7, [[1, 2, 3]])], [(7, false)], [(7, 0)]⟩

/-- C1 counterexample: at the default configuration, a flush of a
three-byte snapshot (shorter than the 24000-byte minimum) leaves the sink
state untouched: the buffer is not cleared and the last process time is
not updated to the current time, contradicting the claim that a short
flush clears the buffer and updates the timestamp. -/
theorem c1_short_flush_counterexample :
    processUserAudio defaultSinkCfg shortBufState 7 100 none ("뮤직봇".toList) =
      ⟨shortBufState, false, none⟩ ∧
    alookup 7 shortBufState.audio_buffers = some [[1, 2, 3]] ∧
    ([[1, 2, 3]] : List (List Nat)) ≠ [] ∧
    alookup 7 shortBufState.last_process_time = some 0 ∧
    (0 : Nat) ≠ 100 ∧
    ([[1, 2, 3]] : List (List Nat)).flatten.length < defaultSinkCfg.min_audio_length := by
  decide

/-- C1 (amended): a flush whose snapshot is shorter than min_audio_length
returns early without invoking recognition, without clearing the buffer
and without updating the last process time: the sink state is unchanged. -/
theorem c1_short_flush_no_consume (cfg : SinkCfg) (st : SinkState) (user now : Nat)
    (recognized : Option (List Char)) (bot : List Char) (buf : List (List Nat))
    (hl : alookup user st.processing_locks = some false)
    (hb : alookup user st.audio_buffers = some buf)
    (hne : buf ≠ [])
    (hshort : buf.flatten.length < cfg.min_audio_length) :
    processUserAudio cfg st user now recognized bot = ⟨st, false, none⟩ := by
  have hempty : buf.isEmpty = false := by
    cases buf with
    | nil => exact absurd rfl hne
    | cons b bs => rfl
  unfold processUserAudio
  rw [hl, hb]
  simp only [hempty, Bool.false_eq_true, if_false, if_pos hshort]

/-- C1 witness. -/
theorem c1_short_flush_witness :
    processUserAudio defaultSinkCfg shortBufState 7 100 none ("뮤직봇".toList) =
      ⟨shortBufState, false, none⟩ :=
  c1_short_flush_no_consume defaultSinkCfg shortBufState 7 100 none ("뮤직봇".toList)
    [[1, 2, 3]] (by decide) (by decide) (by decide) (by decide)

/-- C3: while a speaker's processing lock is held by an in-progress
flush, a second flush request for that speaker is a no-op: the state is
returned unchanged (buffer not cleared, last process time unchanged) and
recognition is not invoked. -/
theorem c3_locked_flush_noop (cfg : SinkCfg) (st : SinkState) (user now : Nat)
    (recognized : Option (List Char)) (bot : List Char)
    (hl : alookup user st.processing_locks = some true) :
    processUserAudio cfg st user now recognized bot = ⟨st, false, none⟩ := by
  unfold processUserAudio
  rw [hl]

/-- A speaker state identical to shortBufState except that the flush lock
is held. -/
def lockedState : SinkState := ⟨[(7, [[1, 2, 3]])], [(7, true)], [(7, 0)]⟩

/-- C3 witness. -/
theorem c3_locked_flush_witness :
    processUserAudio defaultSinkCfg lockedState 7 100 none ("뮤직봇".toList) =
      ⟨lockedState, false, none⟩ :=
  c3_locked_flush_noop defaultSinkCfg lockedState 7 100 none ("뮤직봇".toList) (by decide)

/-- C4: starting from the freshly constructed sink, any sequence of write
calls leaves every speaker buffer at no more than sample_rate times
max_buffer_duration frames, and an append to a buffer already at that
capacity drops the oldest frame first. -/
theorem c4_buffer_bounded :
    (∀ (cfg : SinkCfg) (events : List (List Nat × Nat × Nat)) (u : Nat)
        (buf : List (List Nat)),
      alookup u (writeSeq cfg initSinkState events).audio_buffers = some buf →
      buf.length ≤ cfg.maxlen) ∧
    (∀ (m : Nat) (buf : List (List Nat)) (x : List Nat),
      buf.length = m → m ≠ 0 → dequeAppend m buf x = buf.drop 1 ++ [x]) := by
  constructor
  · intro cfg events u buf hbuf
    refine writeSeq_bounded cfg events initSinkState ?_ u buf hbuf
    intro u2 buf2 h2
    simp [initSinkState, alookup] at h2
  · intro m buf x hm h0
    unfold dequeAppend
    rw [if_neg h0, if_neg (by omega)]

/-- A tiny configuration whose ring capacity is two frames, used to
exercise the bound and the eviction concretely. -/
def tinySinkCfg : SinkCfg := ⟨1, 5, 3, 2, none⟩

/-- C4 witness: after three writes from one speaker into a two-frame ring
the buffer holds the last two frames, and an append at capacity drops the
head. -/
theorem c4_buffer_bounded_witness :
    ([[2], [3]] : List (List Nat)).length ≤ tinySinkCfg.maxlen ∧
    dequeAppend 2 [[1], [2]] [3] = ([[1], [2]] : List (List Nat)).drop 1 ++ [[3]] :=
  ⟨c4_buffer_bounded.1 tinySinkCfg [([1], 1, 0), ([2], 1, 0), ([3], 1, 0)] 1 [[2], [3]]
      (by decide),
   c4_buffer_bounded.2 2 [[1], [2]] [3] (by decide) (by decide)⟩

/-- C10: a write whose user equals the configured bot id returns the
state unchanged and requests no flush: no buffer, lock or timestamp entry
is created or modified for any speaker. -/
theorem c10_bot_audio_ignored (cfg : SinkCfg) (st : SinkState) (data : List Nat)
    (user now : Nat) (h : cfg.bot_id = some user) :
    write cfg st data user now = (st, false) := by
  unfold write
  rw [if_pos h]

/-- The default sink configuration with the bot id set to 42. -/
def botSinkCfg : SinkCfg := ⟨48000, 5, 24000, 8, some 42⟩

/-- C10 witness. -/
theorem c10_bot_audio_ignored_witness :
    write botSinkCfg shortBufState [9, 9] 42 50 = (shortBufState, false) :=
  c10_bot_audio_ignored botSinkCfg shortBufState [9, 9] 42 50 (by decide)

/-- C2: when the text after the wake phrase has two table phrases of
different lengths as prefixes, parse selects a matching entry of maximal
phrase length, at least as long as the longer of the two, and returns the
stripped text after that phrase as the argument string. -/
theorem c2_longest_prefix_wins (bot text r p1 c1 p2 c2 : List Char)
    (cmap : List (List Char × List Char))
    (hr : extract_command_text bot text = some r)
    (h1 : (p1, c1) ∈ cmap) (h2 : (p2, c2) ∈ cmap)
    (hp1 : p1.isPrefixOf r = true) (hp2 : p2.isPrefixOf r = true)
    (hlen : p2.length < p1.length) :
    ∃ q cq, (q, cq) ∈ cmap ∧ q.isPrefixOf r = true ∧ p1.length ≤ q.length ∧
      (∀ p c, (p, c) ∈ cmap → p.isPrefixOf r = true → p.length ≤ q.length) ∧
      parse_command bot cmap text = some (cq, pyStrip (r.drop q.length)) := by
  have hmem : (p1, c1) ∈ sortByLenDesc cmap := mem_sortByLenDesc.2 h1
  obtain ⟨e, he⟩ :=
    find?_isSome_of_mem (p := fun x => x.1.isPrefixOf r) hmem (by simpa using hp1)
  have hlongest := find?_longest_of_pairwise (pairwise_sortByLenDesc cmap) he
  refine ⟨e.1, e.2, ?_, ?_, ?_, ?_, ?_⟩
  · exact mem_sortByLenDesc.1 (by simpa using List.mem_of_find?_eq_some he)
  · simpa using List.find?_some he
  · exact hlongest (p1, c1) hmem hp1
  · intro p c hpc hpref
    exact hlongest (p, c) (mem_sortByLenDesc.2 hpc) hpref
  · unfold parse_command
    rw [hr]
    simp only [he]

/-- C2 witness: with the real table, the remainder after the wake phrase
starts with both the four-character phrase and the two-character phrase,
and the four-character one wins. -/
theorem c2_longest_prefix_wins_witness :
    ∃ q cq, (q, cq) ∈ vr_command_map ∧ q.isPrefixOf ("다시재생 지금".toList) = true ∧
      ("다시재생".toList).length ≤ q.length ∧
      (∀ p c, (p, c) ∈ vr_command_map → p.isPrefixOf ("다시재생 지금".toList) = true →
        p.length ≤ q.length) ∧
      parse_command ("뮤직봇".toList) vr_command_map ("뮤직봇 다시재생 지금".toList) =
        some (cq, pyStrip (("다시재생 지금".toList).drop q.length)) :=
  c2_longest_prefix_wins ("뮤직봇".toList) ("뮤직봇 다시재생 지금".toList)
    ("다시재생 지금".toList) ("다시재생".toList) ("!resume".toList) ("다시".toList)
    ("!resume".toList) vr_command_map (by decide) (by decide) (by decide) (by decide)
    (by decide) (by decide)

/-- C8: parse returns none when the lowercased, stripped text does not
contain the wake phrase, and also when the stripped text after the first
occurrence of the wake phrase is empty. -/
theorem c8_parse_failures (bot : List Char) (cmap : List (List Char × List Char))
    (text : List Char) :
    (findSub bot (pyStrip (lowerStr text)) = none → parse_command bot cmap text = none) ∧
    (∀ i, findSub bot (pyStrip (lowerStr text)) = some i →
      pyStrip ((pyStrip (lowerStr text)).drop (i + bot.length)) = [] →
      parse_command bot cmap text = none) := by
  constructor
  · intro hnone
    unfold parse_command extract_command_text
    by_cases ht : text.isEmpty
    · simp [ht]
    · simp [ht, hnone]
  · intro i hi hempty
    unfold parse_command extract_command_text
    by_cases ht : text.isEmpty
    · simp [ht]
    · simp [ht, hi, hempty]

/-- C8 witness: a text without the wake phrase, and a text that is the
wake phrase alone. -/
theorem c8_parse_failures_witness :
    parse_command ("뮤직봇".toList) vr_command_map ("안녕하세요".toList) = none ∧
    parse_command ("뮤직봇".toList) vr_command_map ("  뮤직봇  ".toList) = none :=
  ⟨(c8_parse_failures ("뮤직봇".toList) vr_command_map ("안녕하세요".toList)).1 (by decide),
   (c8_parse_failures ("뮤직봇".toList) vr_command_map ("  뮤직봇  ".toList)).2 0
     (by decide) (by decide)⟩

/-- C7: a command whose stripped name matches no registered handler, and
for which the single alias consultation also produces no registered
handler, makes dispatch log and return the silent handlerNotFound result:
no handler call is attempted and nothing is raised. -/
theorem c7_unknown_command_noop (env : DispatchEnv) (command args : List Char)
    (h1 : alookup (stripMarker command) env.handlers = none)
    (h2 : (alookup (stripMarker command) env.aliases).bind
        (fun ac => alookup ac env.handlers) = none) :
    dispatch env command args = DispatchResult.handlerNotFound := by
  have hres : resolveHandler env command = none := by
    unfold resolveHandler
    rw [h1]
    by_cases hu : env.usealias
    · rw [if_pos hu]
      cases ha : alookup (stripMarker command) env.aliases with
      | none => rfl
      | some ac =>
        rw [ha] at h2
        simpa using h2
    · rw [if_neg hu]
  unfold dispatch
  rw [hres]

/-- A dispatch environment with one registered handler and one alias,
used by the C7 witness. -/
def unknownCmdEnv : DispatchEnv :=
  ⟨[("play".toList, ⟨[], none⟩)], [("p".toList, "play".toList)], true, false, false,
   GetPlayerResult.ok, false, GetPlayerResult.ok⟩

/-- C7 witness. -/
theorem c7_unknown_command_noop_witness :
    dispatch unknownCmdEnv ("!unknown".toList) ("x".toList) =
      DispatchResult.handlerNotFound :=
  c7_unknown_command_noop unknownCmdEnv ("!unknown".toList) ("x".toList)
    (by decide) (by decide)

/-- An environment whose one handler requires a player and whose invoking
member is not in any voice channel. -/
def noVoiceEnv : DispatchEnv :=
  ⟨[("play".toList, ⟨[⟨"player".toList, ParamKind.posOrKw, false⟩], none⟩)], [], false,
   false, false, GetPlayerResult.ok, false, GetPlayerResult.ok⟩

/-- Like noVoiceEnv but the member is in voice and get_player fails with
the not-in-a-voice-channel error while summon also fails. -/
def botAbsentEnv : DispatchEnv :=
  ⟨[("play".toList, ⟨[⟨"player".toList, ParamKind.posOrKw, false⟩], none⟩)], [], false,
   false, true, GetPlayerResult.errNotInVoice, false, GetPlayerResult.ok⟩

/-- C5 counterexample: dispatching a player-requiring handler for a
member in no voice channel raises the voice-context error with zero
summon attempts, not one as the claim states. -/
theorem c5_no_summon_counterexample :
    dispatch noVoiceEnv ("play".toList) [] = DispatchResult.voiceContextError 0 ∧
    DispatchResult.voiceContextError 0 ≠ DispatchResult.voiceContextError 1 := by
  decide

/-- C5 (amended): when the handler declares a player parameter, a member
in no voice channel makes dispatch fail immediately with the
voice-context error and no summon attempt; the one-shot summon recovery
happens only when the member is in voice and get_player fails with the
not-in-a-voice-channel error, after which the original failure is
re-raised with exactly one attempt recorded. -/
theorem c5_player_resolution (env : DispatchEnv) (command args : List Char) (h : Handler)
    (hres : resolveHandler env command = some h)
    (hp : "player".toList ∈ h.params.map Param.name) :
    (env.memberInVoice = false →
      dispatch env command args = DispatchResult.voiceContextError 0) ∧
    (env.memberInVoice = true → env.getPlayer1 = GetPlayerResult.errNotInVoice →
      env.summonOk = false →
      dispatch env command args = DispatchResult.playerResolveError 1) := by
  have hmem : "player".toList ∈ (bindBasicCtx h.params).2.map Param.name := by
    unfold bindBasicCtx
    exact mem_ctxStep_of_ne (by decide)
      (mem_ctxStep_of_ne (by decide)
        (mem_ctxStep_of_ne (by decide)
          (mem_ctxStep_of_ne (by decide) hp)))
  obtain ⟨ps2, hpop⟩ := popParam_isSome hmem
  constructor
  · intro hnv
    have hrp : resolvePlayer env = Except.error (DispatchResult.voiceContextError 0) := by
      simp [resolvePlayer, hnv]
    unfold dispatch
    rw [hres]
    simp only [hpop, hrp]
  · intro hv hg1 hs
    have hrp : resolvePlayer env = Except.error (DispatchResult.playerResolveError 1) := by
      simp [resolvePlayer, hv, hg1, hs]
    unfold dispatch
    rw [hres]
    simp only [hpop, hrp]

/-- C5 witness. -/
theorem c5_player_resolution_witness :
    dispatch noVoiceEnv ("play".toList) [] = DispatchResult.voiceContextError 0 ∧
    dispatch botAbsentEnv ("play".toList) [] = DispatchResult.playerResolveError 1 :=
  ⟨(c5_player_resolution noVoiceEnv ("play".toList) []
      ⟨[⟨"player".toList, ParamKind.posOrKw, false⟩], none⟩ (by decide) (by decide)).1 rfl,
   (c5_player_resolution botAbsentEnv ("play".toList) []
      ⟨[⟨"player".toList, ParamKind.posOrKw, false⟩], none⟩ (by decide) (by decide)).2
      rfl rfl rfl⟩

/-- An environment whose one handler declares a single required
non-context parameter, invoked with no argument tokens. -/
def missingParamEnv : DispatchEnv :=
  ⟨[("play".toList, ⟨[⟨"song".toList, ParamKind.posOrKw, false⟩], none⟩)], [], false, false,
   false, GetPlayerResult.ok, false, GetPlayerResult.ok⟩

/-- C6 counterexample: with a required parameter left unbound, dispatch
does not abort before the call: it reaches the handler call site with the
parameter reported missing, contradicting the claim that dispatch is
aborted without invoking the handler. -/
theorem c6_missing_param_counterexample :
    dispatch missingParamEnv ("play".toList) [] =
      DispatchResult.missingParamsCall [] ["song".toList] ∧
    handlerCallAttempted (dispatch missingParamEnv ("play".toList) []) = true := by
  decide

lemma popParam_single_ne {nm n : List Char} {k : ParamKind} {d : Bool} (h : n ≠ nm) :
    popParam nm [⟨n, k, d⟩] = none := by
  unfold popParam
  rw [if_neg h]
  rfl

lemma ctxStep_skip {nm n : List Char} {v : BoundValue}
    {kws : List (List Char × BoundValue)} {k : ParamKind} {d : Bool} (h : n ≠ nm) :
    ctxStep nm v (kws, [⟨n, k, d⟩]) = (kws, [⟨n, k, d⟩]) := by
  unfold ctxStep
  rw [popParam_single_ne h]

lemma permStep_skip {n : List Char} {env : DispatchEnv}
    {kws : List (List Char × BoundValue)} {k : ParamKind} {d : Bool}
    (h : n ≠ "permissions".toList) :
    permStep env (kws, [⟨n, k, d⟩]) = (kws, [⟨n, k, d⟩]) := by
  unfold permStep
  rw [popParam_single_ne h]

/-- C6 (amended): a required parameter with no supplied value and no
default is logged as missing, but dispatch is not aborted: the handler
call is still attempted with the partial keyword set (failing there), and
the dispatcher itself surfaces no message to the end user. -/
theorem c6_missing_param_no_abort (env : DispatchEnv) (command n args : List Char)
    (resp : Option Resp)
    (hres : resolveHandler env command = some ⟨[⟨n, ParamKind.posOrKw, false⟩], resp⟩)
    (hn : ∀ m ∈ ctxNames, n ≠ m)
    (hargs : pySplit args = []) :
    dispatch env command args = DispatchResult.missingParamsCall [] [n] := by
  have e1 : n ≠ "message".toList := hn _ (by decide)
  have e2 : n ≠ "channel".toList := hn _ (by decide)
  have e3 : n ≠ "author".toList := hn _ (by decide)
  have e4 : n ≠ "guild".toList := hn _ (by decide)
  have e5 : n ≠ "player".toList := hn _ (by decide)
  have e6 : n ≠ "_player".toList := hn _ (by decide)
  have e7 : n ≠ "permissions".toList := hn _ (by decide)
  have e8 : n ≠ "user_mentions".toList := hn _ (by decide)
  have e9 : n ≠ "channel_mentions".toList := hn _ (by decide)
  have e10 : n ≠ "voice_channel".toList := hn _ (by decide)
  have e11 : n ≠ "leftover_args".toList := hn _ (by decide)
  have hb : bindBasicCtx [⟨n, ParamKind.posOrKw, false⟩] =
      ([], [⟨n, ParamKind.posOrKw, false⟩]) := by
    unfold bindBasicCtx
    rw [ctxStep_skip e1, ctxStep_skip e2, ctxStep_skip e3, ctxStep_skip e4]
  have hplayer : popParam ("player".toList) [⟨n, ParamKind.posOrKw, false⟩] = none :=
    popParam_single_ne e5
  have hfill : fillRemaining args [⟨n, ParamKind.posOrKw, false⟩] [] = ([], [], [n]) := rfl
  have hafter : afterPlayer env args [] ⟨[⟨n, ParamKind.posOrKw, false⟩], resp⟩
      ([], [⟨n, ParamKind.posOrKw, false⟩]) = DispatchResult.missingParamsCall [] [n] := by
    unfold afterPlayer
    rw [ctxStep_skip e6, permStep_skip e7, ctxStep_skip e8, ctxStep_skip e9,
      ctxStep_skip e10, ctxStep_skip e11]
    simp only [hfill]
    rfl
  unfold dispatch
  rw [hres]
  simp only [hb, hplayer, hargs, hafter]

/-- C6 witness. -/
theorem c6_missing_param_no_abort_witness :
    dispatch missingParamEnv ("play".toList) [] =
      DispatchResult.missingParamsCall [] ["song".toList] :=
  c6_missing_param_no_abort missingParamEnv ("play".toList) ("song".toList) [] none
    (by decide) (by decide) (by decide)

/-- C9: with wake phrase 뮤직봇, parsing 뮤직봇 스킵 yields the skip
command (marker-prefixed, its stripped canonical name being skip) with an
empty argument string, and dispatching that pair against a registry whose
skip handler declares no parameters calls the handler with an empty
keyword set and forwards its response. -/
theorem c9_skip_end_to_end (env : DispatchEnv) (resp : Resp)
    (hh : alookup ("skip".toList) env.handlers = some ⟨[], some resp⟩) :
    parse_command ("뮤직봇".toList) vr_command_map ("뮤직봇 스킵".toList) =
      some ("!skip".toList, []) ∧
    stripMarker ("!skip".toList) = "skip".toList ∧
    dispatch env ("!skip".toList) [] = DispatchResult.completed [] (some resp) := by
  refine ⟨by decide, by decide, ?_⟩
  have hres : resolveHandler env ("!skip".toList) = some ⟨[], some resp⟩ := by
    unfold resolveHandler
    rw [show stripMarker ("!skip".toList) = "skip".toList from by decide, hh]
  unfold dispatch
  rw [hres]
  simp [bindBasicCtx, ctxStep, permStep, popParam, afterPlayer, fillRemaining,
    pySplit, splitAux]

/-- A registry whose skip handler declares no parameters and answers with
a response. -/
def skipEnv : DispatchEnv :=
  ⟨[("skip".toList, ⟨[], some ⟨"done".toList⟩⟩)], [], false, false, false,
   GetPlayerResult.ok, false, GetPlayerResult.ok⟩

/-- C9 witness. -/
theorem c9_skip_end_to_end_witness :
    parse_command ("뮤직봇".toList) vr_command_map ("뮤직봇 스킵".toList) =
      some ("!skip".toList, []) ∧
    stripMarker ("!skip".toList) = "skip".toList ∧
    dispatch skipEnv ("!skip".toList) [] =
      DispatchResult.completed [] (some ⟨"done".toList⟩) :=
  c9_skip_end_to_end skipEnv ⟨"done".toList⟩ (by decide)
